import Mathlib

/-!
Verification of the aiointel HTTP layer: a shallow embedding of the
header-merging, URL-restriction, retry and client-construction logic of
`src/aiointel/http`, together with theorems settling the specification
claims about that code.
-/

instance {ε α : Type} [DecidableEq ε] [DecidableEq α] : DecidableEq (Except ε α) := fun x y =>
  match x, y with
  | Except.ok a, Except.ok b =>
    if h : a = b then isTrue (by rw [h]) else isFalse (by intro he; cases he; exact h rfl)
  | Except.error a, Except.error b =>
    if h : a = b then isTrue (by rw [h]) else isFalse (by intro he; cases he; exact h rfl)
  | Except.ok _, Except.error _ => isFalse (by intro he; cases he)
  | Except.error _, Except.ok _ => isFalse (by intro he; cases he)

namespace AioIntel

/-! ## Strings

Python's `str.lower` restricted to the ASCII range, which covers every
string the embedded code lowercases (URL schemes and HTTP header names). -/

/-- ASCII lowercasing of one character (as in `Char.toLower`). -/
def lowerChar (c : Char) : Char :=
  if 65 ≤ c.toNat && c.toNat ≤ 90 then Char.ofNat (c.toNat + 32) else c

/-- `str.lower` over the ASCII alphabet: lowercase every character. -/
def strLower (s : String) : String :=
  String.mk (s.data.map lowerChar)

/-! ## Header collections (src/aiointel/http/_headers.py)

`httpx.Headers` is an ordered list of raw `(key, value)` pairs; lookup,
membership, deletion and assignment match keys after lowercasing both
sides. -/

/-- A header collection: ordered raw `(key, value)` pairs. -/
abbrev Headers := List (String × String)

/-- The values stored under a key, in order (keys matched case-insensitively). -/
def hvals (h : Headers) (k : String) : List String :=
  (h.filter (fun p => strLower p.1 == strLower k)).map (fun p => p.2)

/-- `httpx.Headers.__getitem__`: all values for the key joined with a comma;
`none` models the `KeyError` on a missing key. -/
def hget (h : Headers) (k : String) : Option String :=
  match hvals h k with
  | [] => none
  | vs => some (String.intercalate ", " vs)

/-- `httpx.Headers.__contains__`. -/
def hcontains (h : Headers) (k : String) : Bool :=
  h.any (fun p => strLower p.1 == strLower k)

/-- `httpx.Headers.__delitem__`: remove every entry whose key matches. -/
def hdel (h : Headers) (k : String) : Headers :=
  h.filter (fun p => !(strLower p.1 == strLower k))

/-- `httpx.Headers.__setitem__`: replace the first matching entry, drop the
later duplicates, append when the key is absent. -/
def hset (h : Headers) (k v : String) : Headers :=
  match h with
  | [] => [(k, v)]
  | p :: rest =>
    if strLower p.1 == strLower k then (k, v) :: hdel rest k
    else p :: hset rest k v

/-- `MutableMapping.setdefault` on `httpx.Headers`: assign only when the key
is absent. -/
def hsetdefault (h : Headers) (k v : String) : Headers :=
  if hcontains h k then h else hset h k v

/-- `httpx.Headers.update`: pop every key that `other` carries, then extend
with the entries of `other`. -/
def hupdate (h other : Headers) : Headers :=
  (h.filter (fun p => !(hcontains other p.1))) ++ other

/-- `BrowserHeaders.merge`: an empty `other` returns `self`; with
`overwrite` the copy is updated from `other`; otherwise each entry of
`other` is `setdefault`-ed into the copy. -/
def merge (self other : Headers) (overwrite : Bool) : Headers :=
  if other.isEmpty then self
  else if overwrite then hupdate self other
  else other.foldl (fun out kv => hsetdefault out kv.1 kv.2) self

/-- `BrowserHeaders.apply_to`: merge `self` into the request's headers,
updating on `overwrite` and `setdefault`-ing otherwise. -/
def apply_to (self reqHeaders : Headers) (overwrite : Bool) : Headers :=
  if overwrite then hupdate reqHeaders self
  else self.foldl (fun out kv => hsetdefault out kv.1 kv.2) reqHeaders

/-- Python `dict.get`: exact (case-sensitive) key lookup in the generated
header dict. -/
def dget (d : List (String × String)) (k : String) : Option String :=
  (d.find? (fun p => p.1 == k)).map (fun p => p.2)

/-- The user-agent branch of `UserAgentRandomizer.__call__`: the walrus
`if user_agent := headers.get('user-agent')` skips the branch when the
value is missing or empty; otherwise the user-agent is assigned when
`overwrite` is set or the request lacks one. -/
def uaSetUserAgent (generated : List (String × String))
    (overwrite : Bool) (req : Headers) : Headers :=
  match dget generated "user-agent" with
  | some ua =>
    if ua == "" then req
    else if overwrite || !(hcontains req "user-agent") then
      hset req "user-agent" ua
    else req
  | none => req

/-- The companion-header loop of `UserAgentRandomizer.__call__`:
`setdefault` every generated entry whose key is not the user-agent. -/
def uaApplyExtra (generated : List (String × String)) (req : Headers) : Headers :=
  generated.foldl
    (fun h kv =>
      if !(strLower kv.1 == strLower "user-agent") then hsetdefault h kv.1 kv.2
      else h)
    req

/-- `UserAgentRandomizer.__call__` acting on the request's header
collection. `generated` is the dict produced by `generate_headers`:
first the user-agent branch, then, when extra headers are enabled, the
companion-header loop. -/
def uaRandomizerCall (generated : List (String × String))
    (overwrite applyExtraHeaders : Bool) (req : Headers) : Headers :=
  let req1 := uaSetUserAgent generated overwrite req
  if applyExtraHeaders then uaApplyExtra generated req1 else req1

/-! ## URL restrictions (src/aiointel/http/_transports.py)

URLs are modelled by the two fields the restriction logic reads: the
scheme and the host. The host of a URL without one is the empty string. -/

structure Url where
  scheme : String
  host : String
deriving DecidableEq, Repr

structure Request where
  url : Url
deriving DecidableEq, Repr

/-- The two kinds of violation text `get_url_violation` can produce, kept
as structured data: the disallowed (lowercased) scheme, or the disallowed
host. -/
inductive Violation where
  | scheme (s : String)
  | host (h : String)
deriving DecidableEq, Repr

/-- The exception escaping `URLRestrictions.enforce` on a violation.
The source executes `raise URLPolicyError(violation, request=request)`,
but the `URLPolicyError` it imports (src/aiointel/http/_exceptions.py) is
a plain `Exception` subclass with no `__init__` of its own, and passing a
keyword argument to it raises
`TypeError("URLPolicyError() takes no keyword arguments")` (verified on
Python 3.11). The exception that actually escapes is therefore that
TypeError, carrying neither the violation text nor the request. -/
inductive EnforceError where
  | typeError (message : String)
deriving DecidableEq, Repr

structure URLRestrictions where
  force_https : Bool := false
  reject_private_hosts : Bool := false
  allowed_url_schemes : List String := []
deriving DecidableEq, Repr

/-- `URLRestrictions.is_allowed_scheme`: lowercase the scheme; `https` and
`http` are always allowed; otherwise the lowercased scheme is looked up
verbatim in `allowed_url_schemes`. -/
def is_allowed_scheme (r : URLRestrictions) (scheme : String) : Bool :=
  let s := strLower scheme
  if s == "https" || s == "http" then true
  else r.allowed_url_schemes.contains s

/-! ### Literal IP hosts

`ipaddress.ip_address` (Python 3.11): first the dotted-quad IPv4 grammar
(exactly four parts separated by dots, each 1-3 ASCII digits with no
leading zero and value at most 255), then the IPv6 grammar (colon-
separated hextets with at most one `::` gap, an optional trailing
embedded dotted quad, and an optional `%scope` suffix). Strings that fit
neither grammar (hostnames such as `example.com`) raise `ValueError`,
modelled as `none`. -/

/-- Split a character list at every dot, as `str.split('.')` does: the
empty string yields one empty part. -/
def splitDots (cs : List Char) : List (List Char) :=
  cs.foldr
    (fun c acc =>
      if c == '.' then [] :: acc
      else
        match acc with
        | g :: gs => (c :: g) :: gs
        | [] => [[c]])
    [[]]

/-- One dotted-quad octet: 1-3 digits, no leading zero, at most 255. -/
def parseOctet (cs : List Char) : Option Nat :=
  if cs.isEmpty || 3 < cs.length then none
  else if !(cs.all Char.isDigit) then none
  else if 1 < cs.length && cs.headD '0' == '0' then none
  else
    let n := cs.foldl (fun acc c => acc * 10 + (c.toNat - 48)) 0
    if n ≤ 255 then some n else none

structure IPv4 where
  a : Nat
  b : Nat
  c : Nat
  d : Nat
deriving DecidableEq, Repr

/-- `IPv4Address._ip_int_from_string` on a character list: exactly four
octets separated by dots. -/
def parse_ipv4_chars (cs : List Char) : Option IPv4 :=
  match (splitDots cs).map parseOctet with
  | [some a, some b, some c, some d] => some ⟨a, b, c, d⟩
  | _ => none

/-- `IPv4Address` parsing of a host string. -/
def parse_ipv4 (s : String) : Option IPv4 :=
  parse_ipv4_chars s.data

/-- The 32-bit value of a parsed dotted quad. -/
def v4val (ip : IPv4) : Nat :=
  ((ip.a * 256 + ip.b) * 256 + ip.c) * 256 + ip.d

/-- The dotted quad of a 32-bit value. -/
def v4OfNat (m : Nat) : IPv4 :=
  ⟨m / 16777216, m / 65536 % 256, m / 256 % 256, m % 256⟩

/-- `IPv4Address.is_private`: membership in the private network list
(0.0.0.0/8, 10.0.0.0/8, 127.0.0.0/8, 169.254.0.0/16, 172.16.0.0/12,
192.0.0.0/29, 192.0.0.170/31, 192.0.2.0/24, 192.168.0.0/16,
198.18.0.0/15, 198.51.100.0/24, 203.0.113.0/24, 240.0.0.0/4,
255.255.255.255/32). -/
def is_private_v4 (ip : IPv4) : Bool :=
  ip.a == 0 || ip.a == 10 || ip.a == 127
    || (ip.a == 169 && ip.b == 254)
    || (ip.a == 172 && 16 ≤ ip.b && ip.b ≤ 31)
    || (ip.a == 192 && ip.b == 0 && ip.c == 0 && ip.d ≤ 7)
    || (ip.a == 192 && ip.b == 0 && ip.c == 0 && (ip.d == 170 || ip.d == 171))
    || (ip.a == 192 && ip.b == 0 && ip.c == 2)
    || (ip.a == 192 && ip.b == 168)
    || (ip.a == 198 && (ip.b == 18 || ip.b == 19))
    || (ip.a == 198 && ip.b == 51 && ip.c == 100)
    || (ip.a == 203 && ip.b == 0 && ip.c == 113)
    || 240 ≤ ip.a

/-- `IPv4Address.is_loopback`: 127.0.0.0/8. -/
def is_loopback_v4 (ip : IPv4) : Bool := ip.a == 127

/-- `IPv4Address.is_reserved`: 240.0.0.0/4. -/
def is_reserved_v4 (ip : IPv4) : Bool := 240 ≤ ip.a

/-- `IPv4Address.is_link_local`: 169.254.0.0/16. -/
def is_link_local_v4 (ip : IPv4) : Bool := ip.a == 169 && ip.b == 254

/-- `IPv4Address.is_multicast`: 224.0.0.0/4. -/
def is_multicast_v4 (ip : IPv4) : Bool := 224 ≤ ip.a && ip.a ≤ 239

/-- Split a character list at every colon, as `str.split(':')` does. -/
def splitColons (cs : List Char) : List (List Char) :=
  cs.foldr
    (fun c acc =>
      if c == ':' then [] :: acc
      else
        match acc with
        | g :: gs => (c :: g) :: gs
        | [] => [[c]])
    [[]]

def isHexDigitChar (c : Char) : Bool :=
  (48 ≤ c.toNat && c.toNat ≤ 57) || (97 ≤ c.toNat && c.toNat ≤ 102)
    || (65 ≤ c.toNat && c.toNat ≤ 70)

def hexDigitVal (c : Char) : Nat :=
  if c.toNat ≤ 57 then c.toNat - 48
  else if 97 ≤ c.toNat then c.toNat - 87
  else c.toNat - 55

/-- `IPv6Address._parse_hextet`: only hex digits, 1-4 of them (leading
zeros are allowed here, unlike IPv4 octets). -/
def parse_hextet (cs : List Char) : Option Nat :=
  if cs.isEmpty || 4 < cs.length then none
  else if !(cs.all isHexDigitChar) then none
  else some (cs.foldl (fun acc c => acc * 16 + hexDigitVal c) 0)

/-- Accumulate hextets into the running 128-bit value
(`ip_int <<= 16; ip_int |= hextet`), failing on a malformed hextet. -/
def foldHextets (acc : Nat) : List (List Char) → Option Nat
  | [] => some acc
  | p :: rest =>
    match parse_hextet p with
    | some v => foldHextets (acc * 65536 + v) rest
    | none => none

/-- `'%x' % n` for a hextet value. -/
def hexDigitChar (n : Nat) : Char :=
  if n < 10 then Char.ofNat (48 + n) else Char.ofNat (87 + n)

def natToHex4 (n : Nat) : List Char :=
  if n < 16 then [hexDigitChar n]
  else if n < 256 then [hexDigitChar (n / 16), hexDigitChar (n % 16)]
  else if n < 4096 then
    [hexDigitChar (n / 256), hexDigitChar (n / 16 % 16), hexDigitChar (n % 16)]
  else
    [hexDigitChar (n / 4096), hexDigitChar (n / 256 % 16),
      hexDigitChar (n / 16 % 16), hexDigitChar (n % 16)]

/-- When the last part carries a dot, parse it as an embedded dotted quad
and replace it by its two hextets, as `_ip_int_from_string` does before
the hextet scan. -/
def expandTrailingIPv4 (parts : List (List Char)) : Option (List (List Char)) :=
  match parts.getLast? with
  | none => some parts
  | some last =>
    if last.contains '.' then
      match parse_ipv4_chars last with
      | some ip =>
        some (parts.dropLast
          ++ [natToHex4 (v4val ip / 65536), natToHex4 (v4val ip % 65536)])
      | none => none
    else some parts

/-- The hextet scan of `IPv6Address._ip_int_from_string` after the IPv4
expansion: at most 9 parts; at most one empty part strictly inside (the
`::` gap); a leading or trailing empty part only next to that gap; without
a gap, exactly 8 nonempty parts. -/
def parse_ipv6_core (parts : List (List Char)) : Option Nat :=
  if 9 < parts.length then none
  else
    let interior := (parts.drop 1).dropLast
    if 2 ≤ (interior.filter (fun p => p.isEmpty)).length then none
    else
      match interior.findIdx? (fun p => p.isEmpty) with
      | some idx =>
        let skip := idx + 1
        let partsHi0 := skip
        let partsLo0 := parts.length - skip - 1
        let headEmpty := (parts.headD [' ']).isEmpty
        let lastEmpty := (parts.getLastD [' ']).isEmpty
        if headEmpty && !(partsHi0 - 1 == 0) then none
        else if lastEmpty && !(partsLo0 - 1 == 0) then none
        else
          let partsHi := if headEmpty then partsHi0 - 1 else partsHi0
          let partsLo := if lastEmpty then partsLo0 - 1 else partsLo0
          if 8 ≤ partsHi + partsLo then none
          else
            let skipped := 8 - (partsHi + partsLo)
            match foldHextets 0 (parts.take partsHi) with
            | none => none
            | some hi =>
              match foldHextets 0 (parts.drop (parts.length - partsLo)) with
              | none => none
              | some lo => some (hi * 65536 ^ (skipped + partsLo) + lo)
      | none =>
        if !(parts.length == 8) then none
        else if (parts.headD [' ']).isEmpty then none
        else if (parts.getLastD [' ']).isEmpty then none
        else foldHextets 0 parts

/-- `IPv6Address` parsing of a host's characters: split off a `%scope`
suffix (which must be nonempty and contain no further `%`), require at
least 3 colon-separated parts, expand a trailing embedded dotted quad,
then run the hextet scan. -/
def parse_ipv6 (cs : List Char) : Option Nat :=
  let addr := cs.takeWhile (fun c => !(c == '%'))
  let rest := cs.drop addr.length
  let scopeOk :=
    match rest with
    | [] => true
    | _ :: scope => !scope.isEmpty && !(scope.contains '%')
  if !scopeOk then none
  else
    let parts := splitColons addr
    if parts.length < 3 then none
    else
      match expandTrailingIPv4 parts with
      | none => none
      | some parts2 => parse_ipv6_core parts2

/-- A parsed literal address: IPv4 dotted quad, or the 128-bit value of an
IPv6 literal. -/
inductive IPAddr where
  | v4 (ip : IPv4)
  | v6 (n : Nat)
deriving DecidableEq, Repr

/-- `ipaddress.ip_address`: try `IPv4Address`, then `IPv6Address`;
`ValueError` on both is `none`. -/
def ip_address (s : String) : Option IPAddr :=
  match parse_ipv4 s with
  | some ip => some (IPAddr.v4 ip)
  | none =>
    match parse_ipv6 s.data with
    | some n => some (IPAddr.v6 n)
    | none => none

/-- Membership of a 128-bit value in the CIDR network with the given base
address and prefix length. -/
def inNet6 (n base p : Nat) : Bool :=
  n / 2 ^ (128 - p) == base / 2 ^ (128 - p)

/-- `IPv6Address.is_private` (Python 3.11): an IPv4-mapped address
(`::ffff:a.b.c.d`, upper 96 bits exactly `::ffff:`) defers to the mapped
IPv4 address; otherwise membership in the private network list (::1/128,
::/128, ::ffff:0:0/96, 100::/64, 2001::/23, 2001:2::/48, 2001:db8::/32,
2001:10::/28, fc00::/7, fe80::/10). -/
def is_private_v6 (n : Nat) : Bool :=
  if n / 4294967296 == 65535 then is_private_v4 (v4OfNat (n % 4294967296))
  else
    inNet6 n 1 128
      || inNet6 n 0 128
      || inNet6 n 0x00000000000000000000ffff00000000 96
      || inNet6 n 0x01000000000000000000000000000000 64
      || inNet6 n 0x20010000000000000000000000000000 23
      || inNet6 n 0x20010002000000000000000000000000 48
      || inNet6 n 0x20010db8000000000000000000000000 32
      || inNet6 n 0x20010010000000000000000000000000 28
      || inNet6 n 0xfc000000000000000000000000000000 7
      || inNet6 n 0xfe800000000000000000000000000000 10

/-- `IPv6Address.is_loopback`: the address ::1. -/
def is_loopback_v6 (n : Nat) : Bool := n == 1

/-- `IPv6Address.is_reserved`: membership in the reserved network list
(::/8, 100::/8, 200::/7, 400::/6, 800::/5, 1000::/4, 4000::/3, 6000::/3,
8000::/3, a000::/3, c000::/3, e000::/4, f000::/5, f800::/6, fe00::/9). -/
def is_reserved_v6 (n : Nat) : Bool :=
  inNet6 n 0 8
    || inNet6 n 0x01000000000000000000000000000000 8
    || inNet6 n 0x02000000000000000000000000000000 7
    || inNet6 n 0x04000000000000000000000000000000 6
    || inNet6 n 0x08000000000000000000000000000000 5
    || inNet6 n 0x10000000000000000000000000000000 4
    || inNet6 n 0x40000000000000000000000000000000 3
    || inNet6 n 0x60000000000000000000000000000000 3
    || inNet6 n 0x80000000000000000000000000000000 3
    || inNet6 n 0xa0000000000000000000000000000000 3
    || inNet6 n 0xc0000000000000000000000000000000 3
    || inNet6 n 0xe0000000000000000000000000000000 4
    || inNet6 n 0xf0000000000000000000000000000000 5
    || inNet6 n 0xf8000000000000000000000000000000 6
    || inNet6 n 0xfe000000000000000000000000000000 9

/-- `IPv6Address.is_link_local`: fe80::/10. -/
def is_link_local_v6 (n : Nat) : Bool :=
  inNet6 n 0xfe800000000000000000000000000000 10

/-- `IPv6Address.is_multicast`: ff00::/8. -/
def is_multicast_v6 (n : Nat) : Bool :=
  inNet6 n 0xff000000000000000000000000000000 8

def IPAddr.is_private : IPAddr → Bool
  | IPAddr.v4 ip => is_private_v4 ip
  | IPAddr.v6 n => is_private_v6 n

def IPAddr.is_loopback : IPAddr → Bool
  | IPAddr.v4 ip => is_loopback_v4 ip
  | IPAddr.v6 n => is_loopback_v6 n

def IPAddr.is_reserved : IPAddr → Bool
  | IPAddr.v4 ip => is_reserved_v4 ip
  | IPAddr.v6 n => is_reserved_v6 n

def IPAddr.is_link_local : IPAddr → Bool
  | IPAddr.v4 ip => is_link_local_v4 ip
  | IPAddr.v6 n => is_link_local_v6 n

def IPAddr.is_multicast : IPAddr → Bool
  | IPAddr.v4 ip => is_multicast_v4 ip
  | IPAddr.v6 n => is_multicast_v6 n

/-- `is_host_private_literal`: a falsy (empty) host is not private; a host
that does not parse as a literal address is not private (no name
resolution is performed); a parsed literal is private when any of the
five classifications holds. -/
def is_host_private_literal (host : String) : Bool :=
  if host == "" then false
  else
    match ip_address host with
    | none => false
    | some a =>
      a.is_private || a.is_loopback || a.is_reserved
        || a.is_link_local || a.is_multicast

/-- `URLRestrictions.get_url_violation`: a scheme violation when the
lowercased scheme is not allowed, else a host violation when
`reject_private_hosts` is set and the host is a private literal, else
none. -/
def get_url_violation (r : URLRestrictions) (u : Url) : Option Violation :=
  if !(is_allowed_scheme r (strLower u.scheme)) then
    some (Violation.scheme (strLower u.scheme))
  else if r.reject_private_hosts && is_host_private_literal u.host then
    some (Violation.host u.host)
  else none

/-- `URLRestrictions.enforce`: when `force_https` is set and the scheme
lowercases to `http`, the request's URL is rewritten in place to `https`
before the violation check; when a violation is produced, the
`raise URLPolicyError(violation, request=request)` itself fails and the
TypeError of `EnforceError` escapes, carrying neither the violation nor
the request. -/
def enforce (r : URLRestrictions) (req : Request) : Except EnforceError Request :=
  let req :=
    if r.force_https && strLower req.url.scheme == "http" then
      { req with url := { req.url with scheme := "https" } }
    else req
  match get_url_violation r req.url with
  | some _ =>
    Except.error (EnforceError.typeError "URLPolicyError() takes no keyword arguments")
  | none => Except.ok req

/-! ## Retry (src/aiointel/http/_retry.py)

Exceptions are values tagged with the class they are an instance of.
`_HTTPX_ERRORS` lists the transient classes; `URLPolicyError` derives
`AioIntelHTTPError`, which derives `Exception` directly, so it is not a
subclass of any member of the tuple. -/

inductive ExcClass where
  | connectionError
  | asyncioTimeout
  | httpxConnectError
  | httpxReadTimeout
  | httpxWriteError
  | httpxRemoteProtocolError
  | httpxPoolTimeout
  | httpxProxyError
  | httpxNetworkError
  | httpcoreConnectError
  | urlPolicyError
  | otherError
deriving DecidableEq, Repr

/-- Whether `except policy.httpx_errors` catches an instance of the class:
exactly the classes of the `_HTTPX_ERRORS` tuple (and their subclasses).
`URLPolicyError` and unrelated exception classes are not caught there and
fall through to the `except Exception` arm. -/
def caught_by_httpx_errors : ExcClass → Bool
  | ExcClass.urlPolicyError => false
  | ExcClass.otherError => false
  | _ => true

/-- The behavior of one invocation of the wrapped coroutine: return a
value, or raise an instance of an exception class. -/
inductive Outcome (R ε : Type) where
  | ok (v : R)
  | raise (c : ExcClass) (e : ε)
deriving DecidableEq, Repr

/-- What a run of the wrapper did: the value returned or the exception
raised (`Except.error none` models `raise None` when the loop body never
ran), how many times the wrapped coroutine was invoked, and the sleeps
performed in order. -/
structure RunResult (R ε : Type) where
  result : Except (Option (ExcClass × ε)) R
  invocations : Nat
  sleeps : List ℚ
deriving DecidableEq, Repr

/-- `RetryPolicy.get_timeout`, with the uniform jitter draw `u` made
explicit: `u` is the value `random.uniform(-j, j)` returned, where
`j = base * jitter`. The Python `if self.jitter:` truthiness test is the
jitter being nonzero. -/
def get_timeout (delay jitter : ℚ) (attempt_no : Nat) (u : ℚ) : ℚ :=
  max 0
    (if jitter ≠ 0 then delay * (attempt_no : ℚ) + u
     else delay * (attempt_no : ℚ))

/-- The loop of `httpx_retry.decorator.wrapper`, one attempt per step.
`op n` is the behavior of the wrapped call on its n-th invocation and
`timeout n` the value of `policy.get_timeout(n)` with the jitter draw
folded in. `remaining` counts the attempt numbers the `for` loop has left,
so the loop starts with `remaining = attempts` and `attempt_no = 1`.
The Python condition `exc is URLPolicyError` compares a caught instance
with the class object by identity and is therefore always false; it is
kept as the literal `false` in the break test. An exception whose class
is not caught by the tuple reaches `except Exception: raise exc` and is
re-raised at once. After a break, or once the range is exhausted,
`raise last_exception` raises the last stored exception. -/
def retryGo {R ε : Type} (attempts : Nat) (timeout : Nat → ℚ)
    (op : Nat → Outcome R ε) :
    Nat → Nat → Option (ExcClass × ε) → Nat → List ℚ → RunResult R ε
  | 0, _, last, inv, sleeps => ⟨Except.error last, inv, sleeps⟩
  | remaining + 1, attempt_no, _, inv, sleeps =>
    match op attempt_no with
    | Outcome.ok v => ⟨Except.ok v, inv + 1, sleeps⟩
    | Outcome.raise c e =>
      if caught_by_httpx_errors c then
        if (attempt_no == attempts) || false then
          ⟨Except.error (some (c, e)), inv + 1, sleeps⟩
        else
          retryGo attempts timeout op remaining (attempt_no + 1)
            (some (c, e)) (inv + 1) (sleeps ++ [timeout attempt_no])
      else ⟨Except.error (some (c, e)), inv + 1, sleeps⟩

/-- A full run of the retry wrapper: iterate `policy.attempt_range`,
which is `range(1, attempts + 1)`. -/
def runRetry {R ε : Type} (attempts : Nat) (timeout : Nat → ℚ)
    (op : Nat → Outcome R ε) : RunResult R ε :=
  retryGo attempts timeout op attempts 1 none 0 []

/-! ## Client construction (src/aiointel/http/_client.py)

Only the user-agent-randomizer wiring of `create_async_client` is
modelled: the rest of the function builds transports and the httpx
client from its other arguments and does not touch this branch. -/

/-- The configuration of a `UserAgentRandomizer` (the fields that govern
its behavior in this model). -/
structure UAConfig where
  overwrite : Bool := false
  apply_extra_headers : Bool := true
deriving DecidableEq, Repr

/-- The `user_agent_randomizer` argument: the literal `False`, the
literal `True`, or a pre-configured randomizer instance. -/
inductive UARandomizerArg where
  | ofBool (b : Bool)
  | inst (r : UAConfig)
deriving DecidableEq, Repr

/-- A Python `NameError` (the `UnboundLocalError` raised when a local
variable is read before assignment is a subclass), carrying the name. -/
inductive BuildError where
  | nameError (localName : String)
deriving DecidableEq, Repr

/-- The constructed client, reduced to the request hooks installed. -/
structure BuiltClient where
  requestHooks : List UAConfig
deriving DecidableEq, Repr

/-- The user-agent-randomizer wiring of `create_async_client`
(`src/aiointel/http/_client.py`, lines 83-86):

    if user_agent_randomizer is not False:
        if user_agent_randomizer is True:
            user_agent_randomize = UserAgentRandomizer()
        middleware['request'].append(user_agent_randomize)

The assignment target drops the final `r` of the parameter name, so the
local `user_agent_randomize` is bound only on the `is True` branch; when
the argument is a randomizer instance the following `append` reads an
unbound local and raises `UnboundLocalError` (a `NameError` subclass)
before any transport or client is constructed. The unbound local is
modelled as an `Option` that starts at `none`. -/
def create_async_client (arg : UARandomizerArg) : Except BuildError BuiltClient :=
  let user_agent_randomize : Option UAConfig :=
    if arg = UARandomizerArg.ofBool true then some {} else none
  if arg = UARandomizerArg.ofBool false then Except.ok ⟨[]⟩
  else
    match user_agent_randomize with
    | some r => Except.ok ⟨[r]⟩
    | none => Except.error (BuildError.nameError "user_agent_randomize")

end AioIntel

namespace AioIntel

/-! ## Helper lemmas on strings -/

theorem lowerChar_idem (c : Char) : lowerChar (lowerChar c) = lowerChar c := by
  unfold lowerChar
  by_cases h : (65 ≤ c.toNat && c.toNat ≤ 90) = true
  · rw [if_pos h]
    simp only [Bool.and_eq_true, decide_eq_true_eq] at h
    have hv : (c.toNat + 32).isValidChar := Or.inl (by omega)
    have ht : (Char.ofNat (c.toNat + 32)).toNat = c.toNat + 32 := by
      rw [Char.ofNat, dif_pos hv]
      rfl
    rw [if_neg]
    rw [ht]
    simp only [Bool.and_eq_true, decide_eq_true_eq, not_and]
    omega
  · rw [if_neg h, if_neg h]

theorem strLower_idem (s : String) : strLower (strLower s) = strLower s := by
  unfold strLower
  simp only [List.map_map]
  congr 1
  apply List.map_congr_left
  intro c _
  simp only [Function.comp_apply]
  exact lowerChar_idem c

theorem strLower_https : strLower "https" = "https" := by decide

theorem strLower_http : strLower "http" = "http" := by decide

/-! ## Helper lemmas on header collections -/

theorem hvals_append (h1 h2 : Headers) (k : String) :
    hvals (h1 ++ h2) k = hvals h1 k ++ hvals h2 k := by
  unfold hvals
  rw [List.filter_append, List.map_append]

theorem hcontains_append (h1 h2 : Headers) (k : String) :
    hcontains (h1 ++ h2) k = (hcontains h1 k || hcontains h2 k) := by
  unfold hcontains
  rw [List.any_append]

theorem hcontains_congr (h : Headers) (k1 k2 : String)
    (hk : strLower k1 = strLower k2) : hcontains h k1 = hcontains h k2 := by
  unfold hcontains
  rw [hk]

theorem hcontains_iff (h : Headers) (k : String) :
    hcontains h k = true ↔ hvals h k ≠ [] := by
  unfold hcontains hvals
  simp only [List.any_eq_true, ne_eq, List.map_eq_nil_iff, List.filter_eq_nil_iff]
  constructor
  · rintro ⟨p, hp, hpk⟩ hnil
    exact absurd hpk (by simpa using hnil p hp)
  · intro hne
    by_contra hall
    push_neg at hall
    exact hne (fun p hp => by simpa using hall p hp)

theorem hset_of_not_contains (h : Headers) (k v : String)
    (hc : hcontains h k = false) : hset h k v = h ++ [(k, v)] := by
  induction h with
  | nil => rfl
  | cons p rest ih =>
    unfold hcontains at hc
    simp only [List.any_cons, Bool.or_eq_false_iff] at hc
    unfold hset
    rw [if_neg (by simp [hc.1]), ih (by unfold hcontains; exact hc.2)]
    rfl

theorem hvals_hdel_ne (h : Headers) (k1 k : String)
    (hne : ¬ strLower k1 = strLower k) : hvals (hdel h k1) k = hvals h k := by
  induction h with
  | nil => rfl
  | cons p rest ih =>
    unfold hdel at ih ⊢
    unfold hvals at ih ⊢
    simp only [List.filter_cons]
    by_cases hp : strLower p.1 = strLower k1
    · rw [if_neg (by simp [hp]), if_neg (by simp [hp, hne])]
      exact ih
    · rw [if_pos (by simp [hp])]
      simp only [List.filter_cons]
      by_cases hpk : strLower p.1 = strLower k
      · rw [if_pos (by simp [hpk]), if_pos (by simp [hpk])]
        simpa using ih
      · rw [if_neg (by simp [hpk]), if_neg (by simp [hpk])]
        exact ih

theorem hvals_hset_ne (h : Headers) (k1 v k : String)
    (hne : ¬ strLower k1 = strLower k) : hvals (hset h k1 v) k = hvals h k := by
  induction h with
  | nil =>
    unfold hset hvals
    simp [hne]
  | cons p rest ih =>
    unfold hset
    by_cases hp : strLower p.1 = strLower k1
    · rw [if_pos (by simp [hp])]
      unfold hvals
      simp only [List.filter_cons]
      rw [if_neg (by simp [hne]), if_neg (by simp [hp, hne])]
      exact hvals_hdel_ne rest k1 k hne
    · rw [if_neg (by simp [hp])]
      unfold hvals
      simp only [List.filter_cons]
      by_cases hpk : strLower p.1 = strLower k
      · rw [if_pos (by simp [hpk]), if_pos (by simp [hpk])]
        simpa using ih
      · rw [if_neg (by simp [hpk]), if_neg (by simp [hpk])]
        exact ih

theorem hvals_hsetdefault_of_contains (h : Headers) (k1 v1 k : String)
    (hc : hcontains h k = true) : hvals (hsetdefault h k1 v1) k = hvals h k := by
  unfold hsetdefault
  by_cases hc1 : hcontains h k1 = true
  · rw [if_pos hc1]
  · rw [if_neg hc1]
    rw [hset_of_not_contains h k1 v1 (by simpa using hc1)]
    rw [hvals_append]
    have hne : ¬ strLower k1 = strLower k := by
      intro heq
      rw [hcontains_congr h k1 k heq] at hc1
      exact hc1 hc
    unfold hvals
    simp [hne]

theorem hcontains_hsetdefault_of_contains (h : Headers) (k1 v1 k : String)
    (hc : hcontains h k = true) : hcontains (hsetdefault h k1 v1) k = true := by
  rw [hcontains_iff] at hc ⊢
  rw [hvals_hsetdefault_of_contains h k1 v1 k (by rw [hcontains_iff]; exact hc)]
  exact hc

theorem hvals_foldl_hsetdefault (l : List (String × String)) :
    ∀ (h : Headers) (k : String), hcontains h k = true →
      hvals (l.foldl (fun out kv => hsetdefault out kv.1 kv.2) h) k = hvals h k := by
  induction l with
  | nil => intro h k _; rfl
  | cons kv rest ih =>
    intro h k hc
    simp only [List.foldl_cons]
    rw [ih (hsetdefault h kv.1 kv.2) k (hcontains_hsetdefault_of_contains h kv.1 kv.2 k hc)]
    exact hvals_hsetdefault_of_contains h kv.1 kv.2 k hc

theorem hvals_filter_keys_absent (h : Headers) (q : String × String → Bool) (k : String)
    (hq : ∀ p, strLower p.1 = strLower k → q p = false) :
    hvals (h.filter q) k = [] := by
  unfold hvals
  simp only [List.map_eq_nil_iff, List.filter_eq_nil_iff]
  intro p hp
  have hq2 := List.of_mem_filter hp
  intro hcontra
  simp only [beq_iff_eq] at hcontra
  rw [hq p hcontra] at hq2
  exact absurd hq2 (by simp)

theorem hvals_hupdate_of_contains (h other : Headers) (k : String)
    (hc : hcontains other k = true) : hvals (hupdate h other) k = hvals other k := by
  unfold hupdate
  rw [hvals_append]
  rw [hvals_filter_keys_absent h _ k]
  · rfl
  · intro p hp
    rw [hcontains_congr other p.1 k hp, hc]
    rfl

theorem hget_congr_hvals (h1 h2 : Headers) (k1 k2 : String)
    (he : hvals h1 k1 = hvals h2 k2) : hget h1 k1 = hget h2 k2 := by
  unfold hget
  rw [he]

theorem hvals_uaApplyExtra_of_contains (generated : List (String × String)) :
    ∀ (h : Headers) (k : String), hcontains h k = true →
      hvals (uaApplyExtra generated h) k = hvals h k := by
  induction generated with
  | nil => intro h k _; rfl
  | cons kv rest ih =>
    intro h k hc
    unfold uaApplyExtra at ih ⊢
    simp only [List.foldl_cons]
    by_cases hcond : (!(strLower kv.1 == strLower "user-agent")) = true
    · rw [if_pos hcond]
      rw [ih (hsetdefault h kv.1 kv.2) k (hcontains_hsetdefault_of_contains h kv.1 kv.2 k hc)]
      exact hvals_hsetdefault_of_contains h kv.1 kv.2 k hc
    · rw [if_neg hcond]
      exact ih h k hc

theorem uaSetUserAgent_no_overwrite (generated : List (String × String)) (req : Headers)
    (hc : hcontains req "user-agent" = true) :
    uaSetUserAgent generated false req = req := by
  unfold uaSetUserAgent
  cases dget generated "user-agent" with
  | none => rfl
  | some ua =>
    simp only
    by_cases hua : (ua == "") = true
    · rw [if_pos hua]
    · rw [if_neg hua, if_neg (by simp [hc])]

theorem hvals_uaSetUserAgent_ne (generated : List (String × String)) (ow : Bool)
    (req : Headers) (k : String) (hne : ¬ strLower k = strLower "user-agent") :
    hvals (uaSetUserAgent generated ow req) k = hvals req k := by
  unfold uaSetUserAgent
  cases dget generated "user-agent" with
  | none => rfl
  | some ua =>
    simp only
    by_cases hua : (ua == "") = true
    · rw [if_pos hua]
    · rw [if_neg hua]
      by_cases hcnd : (ow || !(hcontains req "user-agent")) = true
      · rw [if_pos hcnd]
        exact hvals_hset_ne req "user-agent" ua k (fun h => hne h.symm)
      · rw [if_neg hcnd]

/-! ## Helper lemmas on URL restrictions -/

theorem is_allowed_scheme_https (r : URLRestrictions) :
    is_allowed_scheme r "https" = true := by
  unfold is_allowed_scheme
  rw [strLower_https]
  rfl

theorem get_url_violation_https (r : URLRestrictions) (host : String) :
    get_url_violation r ⟨"https", host⟩ =
      (if r.reject_private_hosts && is_host_private_literal host then
        some (Violation.host host)
      else none) := by
  unfold get_url_violation
  rw [strLower_https]
  rw [if_neg (by rw [is_allowed_scheme_https r]; simp)]

theorem enforce_https_eq (r : URLRestrictions) (host : String) :
    enforce r ⟨⟨"https", host⟩⟩ =
      (if r.reject_private_hosts && is_host_private_literal host then
        Except.error
          (EnforceError.typeError "URLPolicyError() takes no keyword arguments")
      else Except.ok ⟨⟨"https", host⟩⟩) := by
  simp only [enforce]
  rw [if_neg (by rw [strLower_https]; simp)]
  rw [get_url_violation_https r host]
  by_cases hp : (r.reject_private_hosts && is_host_private_literal host) = true
  · rw [if_pos hp, if_pos hp]
  · rw [if_neg hp, if_neg hp]

end AioIntel

namespace AioIntel

/-! ## Claim theorems -/

/-- C1: a URLPolicyError raised by the wrapped operation on any attempt of
the retry loop is re-raised immediately — it is not caught by the
transient-error arm, so the loop neither invokes the operation again nor
sleeps; in particular a URLPolicyError on attempt 1 of a 5-attempt (or any
n-attempt) policy aborts at once with one invocation and no sleeps. -/
theorem urlPolicyError_terminal {R ε : Type} (attempts : Nat) (timeout : Nat → ℚ)
    (op : Nat → Outcome R ε) (e : ε) :
    (∀ remaining attempt_no last inv sleeps, 1 ≤ remaining →
      op attempt_no = Outcome.raise ExcClass.urlPolicyError e →
      retryGo attempts timeout op remaining attempt_no last inv sleeps
        = ⟨Except.error (some (ExcClass.urlPolicyError, e)), inv + 1, sleeps⟩)
    ∧ (1 ≤ attempts → op 1 = Outcome.raise ExcClass.urlPolicyError e →
      runRetry attempts timeout op
        = ⟨Except.error (some (ExcClass.urlPolicyError, e)), 1, []⟩) := by
  have hgo : ∀ remaining attempt_no last inv sleeps, 1 ≤ remaining →
      op attempt_no = Outcome.raise ExcClass.urlPolicyError e →
      retryGo attempts timeout op remaining attempt_no last inv sleeps
        = ⟨Except.error (some (ExcClass.urlPolicyError, e)), inv + 1, sleeps⟩ := by
    intro remaining attempt_no last inv sleeps hrem hop
    cases remaining with
    | zero => omega
    | succ rem =>
      simp only [retryGo, hop, caught_by_httpx_errors]
      simp
  refine ⟨hgo, ?_⟩
  intro ha hop
  unfold runRetry
  exact hgo attempts 1 none 0 [] ha hop

/-- C1 witness: a URLPolicyError on attempt 1 of a 5-attempt policy yields
exactly one invocation, no sleeps, and the error itself. -/
theorem urlPolicyError_terminal_check :
    runRetry (R := Nat) (ε := Nat) 5 (fun _ => 0)
        (fun n => if n == 1 then Outcome.raise ExcClass.urlPolicyError 7 else Outcome.ok 0)
      = ⟨Except.error (some (ExcClass.urlPolicyError, 7)), 1, []⟩ :=
  (urlPolicyError_terminal 5 (fun _ => 0)
    (fun n => if n == 1 then Outcome.raise ExcClass.urlPolicyError 7 else Outcome.ok 0)
    7).2 (by decide) (by decide)

/-- C2: with force_https set, an http request is upgraded to https in place
before the violation check, so the upgrade never itself triggers a scheme
violation: success yields a request whose scheme is https, the violation
check runs on the upgraded URL and can only produce a host violation
(never a scheme violation), any failure is due to the private-host rule,
and the concrete http://example.com request succeeds as
https://example.com. -/
theorem force_https_upgrade (r : URLRestrictions) (host : String)
    (hf : r.force_https = true) :
    (∀ req', enforce r ⟨⟨"http", host⟩⟩ = Except.ok req' → req'.url.scheme = "https")
    ∧ (∀ v, get_url_violation r ⟨"https", host⟩ = some v → v = Violation.host host)
    ∧ (∀ e, enforce r ⟨⟨"http", host⟩⟩ = Except.error e →
        (r.reject_private_hosts && is_host_private_literal host) = true)
    ∧ enforce ⟨true, false, []⟩ ⟨⟨"http", "example.com"⟩⟩
        = Except.ok ⟨⟨"https", "example.com"⟩⟩ := by
  have hcond : (r.force_https && (strLower "http" == "http")) = true := by
    rw [hf, strLower_http]
    rfl
  have hstep : enforce r ⟨⟨"http", host⟩⟩ =
      match get_url_violation r ⟨"https", host⟩ with
      | some _ =>
        Except.error
          (EnforceError.typeError "URLPolicyError() takes no keyword arguments")
      | none => Except.ok ⟨⟨"https", host⟩⟩ := by
    unfold enforce
    rw [if_pos hcond]
  have hviol := get_url_violation_https r host
  refine ⟨?_, ?_, ?_, by decide⟩
  · intro req' hok
    rw [hstep, hviol] at hok
    by_cases hp : (r.reject_private_hosts && is_host_private_literal host) = true
    · rw [if_pos hp] at hok
      exact absurd hok (by simp)
    · rw [if_neg hp] at hok
      simp only [Except.ok.injEq] at hok
      rw [← hok]
  · intro v hv
    rw [hviol] at hv
    by_cases hp : (r.reject_private_hosts && is_host_private_literal host) = true
    · rw [if_pos hp] at hv
      simp only [Option.some.injEq] at hv
      rw [← hv]
    · rw [if_neg hp] at hv
      exact absurd hv (by simp)
  · intro e herr
    rw [hstep, hviol] at herr
    by_cases hp : (r.reject_private_hosts && is_host_private_literal host) = true
    · exact hp
    · rw [if_neg hp] at herr
      exact absurd herr (by simp)

/-- C2 witness: the concrete http://example.com upgrade. -/
theorem force_https_upgrade_check :
    enforce ⟨true, false, []⟩ ⟨⟨"http", "example.com"⟩⟩
      = Except.ok ⟨⟨"https", "example.com"⟩⟩ :=
  (force_https_upgrade ⟨true, false, []⟩ "example.com" rfl).2.2.2

/-- C3 counterexample: the allow/reject decision is NOT invariant under
case variants of the allow-list entries — with the scheme `ftp`, the
allow-list `["ftp"]` accepts while its case variant `["FTP"]` rejects, so
the claim's case-insensitivity of the comparison fails on the allow-list
side. -/
theorem scheme_allow_list_case_sensitive :
    strLower "FTP" = strLower "ftp"
    ∧ is_allowed_scheme ⟨false, false, ["ftp"]⟩ "ftp" = true
    ∧ is_allowed_scheme ⟨false, false, ["FTP"]⟩ "ftp" = false
    ∧ get_url_violation ⟨false, false, ["FTP"]⟩ ⟨"ftp", "example.com"⟩
        = some (Violation.scheme "ftp") :=
  ⟨by decide, by decide, by decide, by decide⟩

/-- C3 amended: a scheme is allowed iff its lowercasing is http, https, or
a verbatim member of the allow-list; the decision is invariant under case
variants of the scheme (not of the allow-list entries); http and https
are always allowed whatever the allow-list; a disallowed scheme yields a
scheme violation and an allowed scheme with no host violation yields
none. -/
theorem scheme_allow_semantics (r : URLRestrictions) (s t : String) (u : Url) :
    (is_allowed_scheme r s = true ↔
      (strLower s = "https" ∨ strLower s = "http"
        ∨ r.allowed_url_schemes.contains (strLower s) = true))
    ∧ (strLower s = strLower t → is_allowed_scheme r s = is_allowed_scheme r t)
    ∧ (strLower s = "http" ∨ strLower s = "https" → is_allowed_scheme r s = true)
    ∧ (u.scheme = s → is_allowed_scheme r s = false →
        get_url_violation r u = some (Violation.scheme (strLower s)))
    ∧ (u.scheme = s → is_allowed_scheme r s = true →
        (r.reject_private_hosts = false ∨ is_host_private_literal u.host = false) →
        get_url_violation r u = none) := by
  have hlower : ∀ w : String, is_allowed_scheme r (strLower w) = is_allowed_scheme r w := by
    intro w
    unfold is_allowed_scheme
    rw [strLower_idem]
  refine ⟨?_, ?_, ?_, ?_, ?_⟩
  · unfold is_allowed_scheme
    by_cases h : (strLower s == "https" || strLower s == "http") = true
    · simp only [h, if_pos]
      simp only [Bool.or_eq_true, beq_iff_eq] at h
      simp [h]
      tauto
    · simp only [h, if_neg]
      simp only [Bool.or_eq_true, beq_iff_eq] at h
      push_neg at h
      simp [h.1, h.2]
  · intro hst
    unfold is_allowed_scheme
    rw [hst]
  · intro hor
    unfold is_allowed_scheme
    rcases hor with h | h <;> rw [h] <;> rfl
  · intro hus hfail
    unfold get_url_violation
    rw [hus, hlower s, hfail]
    rfl
  · intro hus hok hhost
    unfold get_url_violation
    rw [hus, hlower s, hok]
    simp only [Bool.not_true, if_neg]
    have : (r.reject_private_hosts && is_host_private_literal u.host) = false := by
      rcases hhost with h | h <;> simp [h]
    rw [this]
    simp

/-- C3 witness: case-invariance in the scheme argument at a concrete
input: FTP is decided like ftp against the allow-list ["ftp"]. -/
theorem scheme_allow_semantics_check :
    is_allowed_scheme ⟨false, false, ["ftp"]⟩ "FTP" = true :=
  ((scheme_allow_semantics ⟨false, false, ["ftp"]⟩ "FTP" "ftp"
    ⟨"ftp", ""⟩).2.1 (by decide)).trans (by decide)

end AioIntel

namespace AioIntel

/-- C4: with reject_private_hosts set, a request whose host parses as a
literal IP address (IPv4 or IPv6) that is private, loopback, reserved,
link-local or multicast gets a host violation and is rejected by enforce
(the escaping exception being the TypeError of the broken raise); a
parsed literal outside those classes is accepted; a host that does not
parse as a literal address (a hostname - no resolution is performed, the
check being a pure function of the host string) is accepted; and the
concrete hosts of the claim, plus the IPv6 loopback ::1, classify
accordingly. -/
theorem private_host_rejection (r : URLRestrictions) (host : String)
    (hr : r.reject_private_hosts = true) :
    (∀ a, ip_address host = some a →
      (a.is_private || a.is_loopback || a.is_reserved
        || a.is_link_local || a.is_multicast) = true →
      get_url_violation r ⟨"https", host⟩ = some (Violation.host host)
      ∧ enforce r ⟨⟨"https", host⟩⟩
          = Except.error
            (EnforceError.typeError "URLPolicyError() takes no keyword arguments"))
    ∧ (∀ a, ip_address host = some a →
      (a.is_private || a.is_loopback || a.is_reserved
        || a.is_link_local || a.is_multicast) = false →
      get_url_violation r ⟨"https", host⟩ = none
      ∧ enforce r ⟨⟨"https", host⟩⟩ = Except.ok ⟨⟨"https", host⟩⟩)
    ∧ (ip_address host = none →
      get_url_violation r ⟨"https", host⟩ = none
      ∧ enforce r ⟨⟨"https", host⟩⟩ = Except.ok ⟨⟨"https", host⟩⟩)
    ∧ (is_host_private_literal "127.0.0.1" = true
      ∧ is_host_private_literal "10.0.0.1" = true
      ∧ is_host_private_literal "192.168.1.1" = true
      ∧ is_host_private_literal "169.254.0.1" = true
      ∧ is_host_private_literal "::1" = true
      ∧ is_host_private_literal "8.8.8.8" = false
      ∧ is_host_private_literal "example.com" = false) := by
  have hlit : ∀ b, is_host_private_literal host = b →
      get_url_violation r ⟨"https", host⟩ =
        (if b then some (Violation.host host) else none)
      ∧ enforce r ⟨⟨"https", host⟩⟩ =
        (if b then
          Except.error
            (EnforceError.typeError "URLPolicyError() takes no keyword arguments")
        else Except.ok ⟨⟨"https", host⟩⟩) := by
    intro b hb
    rw [get_url_violation_https r host, enforce_https_eq r host, hr, hb]
    exact ⟨by simp, by simp⟩
  have hnone : ip_address "" = none := by decide
  refine ⟨?_, ?_, ?_, by decide, by decide, by decide, by decide, by decide,
    by decide, by decide⟩
  · intro a hip hcls
    by_cases hhost : host = ""
    · subst hhost
      cases hnone.symm.trans hip
    · refine hlit true ?_
      unfold is_host_private_literal
      rw [if_neg (by simpa using hhost), hip]
      exact hcls
  · intro a hip hcls
    by_cases hhost : host = ""
    · subst hhost
      cases hnone.symm.trans hip
    · refine hlit false ?_
      unfold is_host_private_literal
      rw [if_neg (by simpa using hhost), hip]
      exact hcls
  · intro hip
    by_cases hhost : host = ""
    · subst hhost
      exact hlit false (by decide)
    · refine hlit false ?_
      unfold is_host_private_literal
      rw [if_neg (by simpa using hhost), hip]

/-- C4 witness: the concrete private host 10.0.0.1 gets a host violation
and is rejected. -/
theorem private_host_rejection_check :
    get_url_violation ⟨false, true, []⟩ ⟨"https", "10.0.0.1"⟩
      = some (Violation.host "10.0.0.1")
    ∧ enforce ⟨false, true, []⟩ ⟨⟨"https", "10.0.0.1"⟩⟩
      = Except.error
        (EnforceError.typeError "URLPolicyError() takes no keyword arguments") :=
  (private_host_rejection ⟨false, true, []⟩ "10.0.0.1" rfl).1
    (IPAddr.v4 ⟨10, 0, 0, 1⟩) (by decide) (by decide)

/-- C5: attempts=3, delay=0: an operation raising a transient error on
attempts 1 and 2 and returning v on attempt 3 makes the wrapper return v
after exactly 3 invocations with both sleeps equal to 0; an operation
always raising a transient error is invoked exactly 3 times and the
wrapper re-raises the very exception value observed on attempt 3. -/
theorem retry_three_attempts_zero_delay {R ε : Type} (v : R) (e : Nat → ε)
    (c : ExcClass) (jitter : ℚ) (draw : Nat → ℚ)
    (hc : caught_by_httpx_errors c = true)
    (hdraw : ∀ n : Nat, -((0 : ℚ) * (n : ℚ) * jitter) ≤ draw n
      ∧ draw n ≤ (0 : ℚ) * (n : ℚ) * jitter) :
    (∀ op : Nat → Outcome R ε,
      op 1 = Outcome.raise c (e 1) → op 2 = Outcome.raise c (e 2) →
      op 3 = Outcome.ok v →
      runRetry 3 (fun n => get_timeout 0 jitter n (draw n)) op
        = ⟨Except.ok v, 3, [0, 0]⟩)
    ∧ (∀ op : Nat → Outcome R ε, (∀ n, op n = Outcome.raise c (e n)) →
      runRetry 3 (fun n => get_timeout 0 jitter n (draw n)) op
        = ⟨Except.error (some (c, e 3)), 3, [0, 0]⟩) := by
  have ht : ∀ n : Nat, get_timeout 0 jitter n (draw n) = 0 := by
    intro n
    obtain ⟨h1, h2⟩ := hdraw n
    have hz : (0 : ℚ) * (n : ℚ) * jitter = 0 := by ring
    rw [hz] at h1 h2
    have hd0 : draw n = 0 := le_antisymm h2 (by simpa using h1)
    unfold get_timeout
    rw [hd0]
    by_cases hj : jitter ≠ 0
    · rw [if_pos hj]
      simp
    · rw [if_neg hj]
      simp
  constructor
  · intro op h1 h2 h3
    simp only [runRetry, retryGo, h1, h2, h3, hc, ht]
    simp +decide
  · intro op hop
    simp only [runRetry, retryGo, hop, hc, ht]
    simp +decide

/-- C5 witness: both runs at concrete operations, with jitter 1/10 and the
uniform draw pinned to 0 (the only value in [-0, 0]). -/
theorem retry_three_attempts_zero_delay_check :
    runRetry (R := Nat) (ε := Nat) 3 (fun n => get_timeout 0 (1/10) n 0)
        (fun n => if n ≤ 2 then Outcome.raise ExcClass.httpxConnectError n else Outcome.ok 42)
      = ⟨Except.ok 42, 3, [0, 0]⟩
    ∧ runRetry (R := Nat) (ε := Nat) 3 (fun n => get_timeout 0 (1/10) n 0)
        (fun n => Outcome.raise ExcClass.httpxConnectError n)
      = ⟨Except.error (some (ExcClass.httpxConnectError, 3)), 3, [0, 0]⟩ := by
  have hb := retry_three_attempts_zero_delay (R := Nat) (ε := Nat) 42 (fun n => n)
    ExcClass.httpxConnectError (1/10) (fun _ => 0) (by decide)
    (by intro n; norm_num)
  exact ⟨hb.1 _ (by decide) (by decide) (by decide), hb.2 _ (fun n => rfl)⟩

/-- C6: for attempt n ≥ 1, base delay d ≥ 0 and jitter fraction j in
[0, 1), every possible uniform draw u in [-dnj, dnj] gives a backoff wait
within [dn(1-j), dn(1+j)], never negative, and equal to dn when j = 0. -/
theorem get_timeout_bounds (d j : ℚ) (n : Nat) (u : ℚ)
    (hd : 0 ≤ d) (hj0 : 0 ≤ j) (hj1 : j < 1) (hn : 1 ≤ n)
    (hu1 : -(d * (n : ℚ) * j) ≤ u) (hu2 : u ≤ d * (n : ℚ) * j) :
    (d * (n : ℚ) * (1 - j) ≤ get_timeout d j n u
      ∧ get_timeout d j n u ≤ d * (n : ℚ) * (1 + j)
      ∧ 0 ≤ get_timeout d j n u)
    ∧ (j = 0 → get_timeout d j n u = d * (n : ℚ)) := by
  have hdn : (0 : ℚ) ≤ d * (n : ℚ) := mul_nonneg hd (by positivity)
  unfold get_timeout
  by_cases hj : j ≠ 0
  · rw [if_pos hj]
    have hlow : d * (n : ℚ) * (1 - j) ≤ d * (n : ℚ) + u := by nlinarith
    have h0 : (0 : ℚ) ≤ d * (n : ℚ) * (1 - j) := by nlinarith
    have hmax : max 0 (d * (n : ℚ) + u) = d * (n : ℚ) + u :=
      max_eq_right (by linarith)
    rw [hmax]
    exact ⟨⟨hlow, by nlinarith, by linarith⟩, fun hj0' => absurd hj0' hj⟩
  · rw [if_neg hj]
    push_neg at hj
    subst hj
    have hmax : max 0 (d * (n : ℚ)) = d * (n : ℚ) := max_eq_right hdn
    rw [hmax]
    exact ⟨⟨by nlinarith, by nlinarith, hdn⟩, fun _ => rfl⟩

/-- C6 witness: the bounds at d = 1, j = 1/2, n = 2, u = 1/4. -/
theorem get_timeout_bounds_check :
    ((1 : ℚ) * (2 : ℚ) * (1 - 1/2) ≤ get_timeout 1 (1/2) 2 (1/4)
      ∧ get_timeout 1 (1/2) 2 (1/4) ≤ (1 : ℚ) * (2 : ℚ) * (1 + 1/2)
      ∧ (0 : ℚ) ≤ get_timeout 1 (1/2) 2 (1/4))
    ∧ ((1/2 : ℚ) = 0 → get_timeout 1 (1/2) 2 (1/4) = (1 : ℚ) * (2 : ℚ)) :=
  get_timeout_bounds 1 (1/2) 2 (1/4) (by norm_num) (by norm_num) (by norm_num)
    (by norm_num) (by norm_num) (by norm_num)

end AioIntel

namespace AioIntel

/-- C7: merging a header set into an existing collection without overwrite
never replaces a pre-existing value for a key (keys matched
case-insensitively) — it only fills absent keys — while merging with
overwrite replaces the existing value with the new one; the same holds
for applying a header collection to a request. -/
theorem merge_apply_to_overwrite_semantics (self other reqHeaders : Headers) (k : String) :
    (hcontains self k = true → hget (merge self other false) k = hget self k)
    ∧ (hcontains other k = true → hget (merge self other true) k = hget other k)
    ∧ (hcontains reqHeaders k = true →
        hget (apply_to self reqHeaders false) k = hget reqHeaders k)
    ∧ (hcontains self k = true → hget (apply_to self reqHeaders true) k = hget self k) := by
  refine ⟨?_, ?_, ?_, ?_⟩
  · intro hc
    unfold merge
    by_cases ho : other.isEmpty
    · rw [if_pos ho]
    · rw [if_neg ho, if_neg (by simp)]
      exact hget_congr_hvals _ _ _ _ (hvals_foldl_hsetdefault other self k hc)
  · intro hc
    unfold merge
    have ho : ¬ other.isEmpty := by
      intro he
      rw [List.isEmpty_iff] at he
      subst he
      simp [hcontains] at hc
    rw [if_neg ho, if_pos rfl]
    exact hget_congr_hvals _ _ _ _ (hvals_hupdate_of_contains self other k hc)
  · intro hc
    unfold apply_to
    rw [if_neg (by simp)]
    exact hget_congr_hvals _ _ _ _ (hvals_foldl_hsetdefault self reqHeaders k hc)
  · intro hc
    unfold apply_to
    rw [if_pos rfl]
    exact hget_congr_hvals _ _ _ _ (hvals_hupdate_of_contains reqHeaders self k hc)

/-- C7 witness: a concrete Accept header survives a non-overwrite merge
and is replaced by an overwrite merge (case-insensitive key match). -/
theorem merge_apply_to_overwrite_semantics_check :
    hget (merge [("Accept", "text/html")] [("accept", "application/json")] false) "Accept"
      = some "text/html"
    ∧ hget (merge [("Accept", "text/html")] [("accept", "application/json")] true) "Accept"
      = some "application/json" := by
  constructor
  · exact ((merge_apply_to_overwrite_semantics [("Accept", "text/html")]
      [("accept", "application/json")] [] "Accept").1 (by decide)).trans (by decide)
  · exact ((merge_apply_to_overwrite_semantics [("Accept", "text/html")]
      [("accept", "application/json")] [] "Accept").2.1 (by decide)).trans (by decide)

/-- C8: when the request already carries a user-agent and overwrite is
false, the user-agent value is unchanged by the hook; and for any key
other than user-agent already present on the request, its value is
unchanged regardless of the overwrite setting — companion headers never
replace caller-supplied values. -/
theorem uaRandomizer_preserves (generated : List (String × String))
    (overwrite applyExtra : Bool) (req : Headers) (k : String) :
    (hcontains req "user-agent" = true →
      hget (uaRandomizerCall generated false applyExtra req) "user-agent"
        = hget req "user-agent")
    ∧ (¬ strLower k = strLower "user-agent" → hcontains req k = true →
      hget (uaRandomizerCall generated overwrite applyExtra req) k = hget req k) := by
  constructor
  · intro hc
    unfold uaRandomizerCall
    rw [uaSetUserAgent_no_overwrite generated req hc]
    by_cases hae : applyExtra = true
    · rw [if_pos hae]
      exact hget_congr_hvals _ _ _ _
        (hvals_uaApplyExtra_of_contains generated req "user-agent" hc)
    · rw [if_neg hae]
  · intro hne hc
    unfold uaRandomizerCall
    have h1 : hvals (uaSetUserAgent generated overwrite req) k = hvals req k :=
      hvals_uaSetUserAgent_ne generated overwrite req k hne
    have hc1 : hcontains (uaSetUserAgent generated overwrite req) k = true := by
      rw [hcontains_iff, h1]
      rw [hcontains_iff] at hc
      exact hc
    by_cases hae : applyExtra = true
    · rw [if_pos hae]
      refine hget_congr_hvals _ _ _ _ ?_
      rw [hvals_uaApplyExtra_of_contains generated _ k hc1]
      exact h1
    · rw [if_neg hae]
      exact hget_congr_hvals _ _ _ _ h1

/-- C8 witness: a caller-supplied User-Agent survives the hook with
overwrite false, and a caller-supplied accept header survives the
companion-header pass even with overwrite true. -/
theorem uaRandomizer_preserves_check :
    hget (uaRandomizerCall [("user-agent", "Mozilla/5.0"), ("accept", "x")] false true
        [("User-Agent", "curl/8"), ("accept", "text/html")]) "user-agent"
      = some "curl/8"
    ∧ hget (uaRandomizerCall [("user-agent", "Mozilla/5.0"), ("accept", "x")] true true
        [("User-Agent", "curl/8"), ("accept", "text/html")]) "accept"
      = some "text/html" := by
  constructor
  · exact ((uaRandomizer_preserves [("user-agent", "Mozilla/5.0"), ("accept", "x")]
      false true [("User-Agent", "curl/8"), ("accept", "text/html")] "user-agent").1
      (by decide)).trans (by decide)
  · exact ((uaRandomizer_preserves [("user-agent", "Mozilla/5.0"), ("accept", "x")]
      true true [("User-Agent", "curl/8"), ("accept", "text/html")] "accept").2
      (by decide) (by decide)).trans (by decide)

/-- C9 counterexample: on the violating request http://127.0.0.1 (with
force_https and reject_private_hosts), the exception escaping enforce is
the TypeError of the failed raise, which carries no request at all - so
no URLPolicyError with the original request is ever surfaced. -/
theorem enforce_error_carries_nothing :
    enforce ⟨true, true, []⟩ ⟨⟨"http", "127.0.0.1"⟩⟩
      = Except.error
        (EnforceError.typeError "URLPolicyError() takes no keyword arguments") :=
  by decide

/-- C9 amended: whenever enforce fails, the exception is the TypeError
raised by the constructor call inside
`raise URLPolicyError(violation, request=request)` - it carries neither
the violation text nor any request (original or rewritten), because
URLPolicyError is a plain Exception subclass that accepts no keyword
arguments. -/
theorem enforce_error_is_typeError (r : URLRestrictions) (req : Request)
    (e : EnforceError) (h : enforce r req = Except.error e) :
    e = EnforceError.typeError "URLPolicyError() takes no keyword arguments" := by
  simp only [enforce] at h
  by_cases hc : (r.force_https && (strLower req.url.scheme == "http")) = true
  · rw [if_pos hc] at h
    cases hv : get_url_violation r { scheme := "https", host := req.url.host } with
    | none =>
      rw [hv] at h
      exact absurd h (by simp)
    | some v =>
      rw [hv] at h
      simp only [Except.error.injEq] at h
      rw [← h]
  · rw [if_neg hc] at h
    cases hv : get_url_violation r req.url with
    | none =>
      rw [hv] at h
      exact absurd h (by simp)
    | some v =>
      rw [hv] at h
      simp only [Except.error.injEq] at h
      rw [← h]

/-- C9 witness: the amended statement applied at a concrete failing
request (https://10.0.0.1 under reject_private_hosts). -/
theorem enforce_error_is_typeError_check :
    enforce ⟨false, true, []⟩ ⟨⟨"https", "10.0.0.1"⟩⟩
      = Except.error
        (EnforceError.typeError "URLPolicyError() takes no keyword arguments")
    ∧ EnforceError.typeError "URLPolicyError() takes no keyword arguments"
      = EnforceError.typeError "URLPolicyError() takes no keyword arguments" :=
  ⟨by decide,
    enforce_error_is_typeError ⟨false, true, []⟩ ⟨⟨"https", "10.0.0.1"⟩⟩
      (EnforceError.typeError "URLPolicyError() takes no keyword arguments")
      (by decide)⟩

/-- C10: supplying a pre-configured randomizer instance to
create_async_client raises a NameError (the unbound local
user_agent_randomize) before any client is constructed; only the literal
True (installing a default-configured randomizer) or False (no
randomizer) produces a client. -/
theorem randomizer_instance_name_error :
    (∀ rcfg : UAConfig, create_async_client (UARandomizerArg.inst rcfg)
      = Except.error (BuildError.nameError "user_agent_randomize"))
    ∧ create_async_client (UARandomizerArg.ofBool true)
      = Except.ok ⟨[{ overwrite := false, apply_extra_headers := true }]⟩
    ∧ create_async_client (UARandomizerArg.ofBool false) = Except.ok ⟨[]⟩ := by
  refine ⟨?_, by decide, by decide⟩
  intro rcfg
  simp [create_async_client]

end AioIntel
